import Mathlib

/-!
# matread: a MEX gateway that loads a text file into a matrix

A shallow embedding of `src/matread.cpp` (`mexFunction`) and the properties
of it that the specification states.

Conventions of the embedding.

* A `double` is its raw 64-bit pattern, a `Nat` below `2 ^ 64`.
* An `int` is an `Int`; every `int` operation is followed by `wrap32`
  (two's complement, 32 bits).
* `outdata`, `outnan` and the data of the output matrix are lists; a read or
  a write outside a list has no defined result (`none`). The block that
  receives the file has `(fsize+1) mod 2^32` bytes; a store past it has no
  defined result either.
* The host (file system, allocator) and the function `parse`, which the
  source only declares, are fields of `Env`. The parser that the
  specification describes is `parseSpec`.
* `mexErrMsgTxt` aborts the call: nothing after it is executed.
* A call is a `Run`: the list of its observable steps and its outcome.

The definitions come first, the theorems follow.
-/

namespace Matread

/-! ## Machine integers and doubles -/

/-- Smallest value of a 32-bit `int`. -/
def INT_MIN : Int := -2147483648

/-- Largest value of a 32-bit `int`. -/
def INT_MAX : Int := 2147483647

/-- Reduction of an integer to the 32-bit two's complement range. -/
def wrap32 (z : Int) : Int := (z + 2147483648) % 4294967296 - 2147483648

/-- Reduction of an integer to the 64-bit two's complement range (`long long`). -/
def wrap64 (z : Int) : Int :=
  (z + 9223372036854775808) % 18446744073709551616 - 9223372036854775808

/-- Source line 60: `long long nanvar = 0xfff6ac007ffead00;` The literal does not
fit a `long long`; the initialisation keeps its low 64 bits. -/
def nanvar : Int := wrap64 0xfff6ac007ffead00

/-- The eight bytes that `*(long long*)&mptr[i] = nanvar` stores, as a 64-bit
pattern. -/
def nanBits : Nat := (nanvar % 18446744073709551616).toNat

/-- Conversion of a `double` (given by its bits) to `int`, as in
`fixedcol = *mxGetPr(prhs[1])`: the value is truncated toward zero. A value
that does not fit an `int` (also an infinity or a NaN) gives `INT_MIN`, which
is what the conversion instruction of the x86-64 targets delivers. -/
def doubleToInt (bits : Nat) : Int :=
  let sign := bits / 2 ^ 63 % 2
  let e := bits / 2 ^ 52 % 2 ^ 11
  let frac := bits % 2 ^ 52
  if e = 2047 then INT_MIN
  else
    let mant := if e = 0 then frac else frac + 2 ^ 52
    let ex := if e = 0 then 1 else e
    let mag : Nat := if 1075 ≤ ex then mant <<< (ex - 1075) else mant >>> (1075 - ex)
    let v : Int := if sign = 1 then -(mag : Int) else (mag : Int)
    if INT_MIN ≤ v ∧ v ≤ INT_MAX then v else INT_MIN

/-- Read `p[i]` for an `int` index `i`. -/
def readAt {α : Type} (l : List α) (i : Int) : Option α :=
  if 0 ≤ i then l[i.toNat]? else none

/-- Write `p[i] = v` for an `int` index `i`. -/
def writeAt {α : Type} (l : List α) (i : Int) (v : α) : Option (List α) :=
  if 0 ≤ i ∧ i.toNat < l.length then some (l.set i.toNat v) else none

/-! ## The materialization loop (source lines 134-143) -/

/-- The index `y*sx+x` of the source buffers, computed in `int`. -/
def srcIndex (sx : Int) (y x : Nat) : Int := wrap32 (wrap32 ((y : Int) * sx) + (x : Int))

/-- The index `x*sy+y` of the output matrix, computed in `int`. -/
def dstIndex (sy : Int) (y x : Nat) : Int := wrap32 (wrap32 ((x : Int) * sy) + (y : Int))

/-- State of the loop: the data of the output matrix and the indices stored to
so far, oldest first. -/
abbrev LoopState := List Nat × List Nat

/-- Body of the inner loop (lines 138-141) for one pair `(y, x)`. -/
def storeCell (sx sy : Int) (outdata : List Nat) (outnan : List Bool) (y x : Nat)
    (st : LoopState) : Option LoopState := do
  let isnan ← readAt outnan (srcIndex sx y x)
  let v ← if isnan then some nanBits else readAt outdata (srcIndex sx y x)
  let mptr ← writeAt st.1 (dstIndex sy y x) v
  pure (mptr, st.2 ++ [(dstIndex sy y x).toNat])

/-- Inner loop `for(x=0;x<sx;x++)` of row `y`. -/
def rowLoop (sx sy : Int) (outdata : List Nat) (outnan : List Bool) (y : Nat)
    (st : LoopState) : Option LoopState :=
  (List.range sx.toNat).foldlM (fun s x => storeCell sx sy outdata outnan y x s) st

/-- Outer loop `for(y=0;y<sy;y++)`. -/
def materialize (sx sy : Int) (outdata : List Nat) (outnan : List Bool)
    (st : LoopState) : Option LoopState :=
  (List.range sy.toNat).foldlM (fun s y => rowLoop sx sy outdata outnan y s) st

/-! ## The host interface -/

/-- Class of a host array, as far as `mexFunction` tells classes apart:
`mxCHAR_CLASS`, `mxDOUBLE_CLASS`, any other class. -/
inductive ClassID
  | char
  | double
  | other
  deriving DecidableEq

/-- An argument array `prhs[i]`: what `mxGetClassID`, `mxGetM`, `mxGetN`,
`mxGetPr` and `mxGetString` report of it. -/
structure MxArray where
  classID : ClassID
  m : Nat
  n : Nat
  pr : List Nat
  chars : List Char
  deriving DecidableEq

/-- Result of a call of `parse`: the returned status and the four output
parameters `sx`, `sy`, `outdata`, `outnan`. -/
structure ParseOut where
  ok : Int
  sx : Int
  sy : Int
  outdata : List Nat
  outnan : List Bool
  deriving DecidableEq

/-- An open file: the position `ftell` reports at its end and the bytes `fread`
can deliver from its start. -/
structure FileImage where
  tell : Int
  bytes : List Nat
  deriving DecidableEq

/-- The environment of a call: the file system, the allocator and `parse`
(source line 20 declares it, the repository file does not define it). -/
structure Env where
  fopen : List Char → Option FileImage
  malloc : Nat → Bool
  parse : List Nat → Int → ParseOut

/-- Observable steps of a call: the usage text printed by `Syntax()`, `fopen`
on a file name, `parse` on a buffer and a column count,
`mxCreateDoubleMatrix(sy,sx,mxREAL)`, a store to `mptr[index]`. -/
inductive Event
  | usage
  | fopen (filename : List Char)
  | parse (buffer : List Nat) (fixedcol : Int)
  | create (sy sx : Int)
  | store (index : Nat)
  deriving DecidableEq

/-- The step opens a file. -/
def Event.isFopen : Event → Bool
  | Event.fopen _ => true
  | _ => false

/-- The step is a call of `parse`. -/
def Event.isParse : Event → Bool
  | Event.parse _ _ => true
  | _ => false

/-- The output matrix `plhs[0]`: `rows` by `cols`, data in column-major order,
each cell a 64-bit pattern. -/
structure Matrix where
  rows : Nat
  cols : Nat
  data : List Nat
  deriving DecidableEq

/-- How a call ends: aborted by `Error` with a message, returned with the
matrix in `plhs[0]`, or left the behaviour the language defines (an access
outside a buffer, a negative matrix dimension). -/
inductive Outcome
  | error (msg : String)
  | ok (m : Matrix)
  | undefined
  deriving DecidableEq

/-- A finished call: its steps in order and its outcome. -/
structure Run where
  log : List Event
  out : Outcome
  deriving DecidableEq

/-- Source line 22. -/
def MAXFNAME : Nat := 255

/-! ## mexFunction -/

/-- Source lines 26-37: `Syntax()` prints the usage text. -/
abbrev Syntax : List Event := [Event.usage]

/-- Source lines 38-41: `Error(s)` is `mexErrMsgTxt(s)`. The call ends there
with the message `s`; `log` holds the steps taken before. -/
abbrev Error (log : List Event) (s : String) : Run := ⟨log, Outcome.error s⟩

/-- Source line 103: `fsize = ftell(f)` with `fsize` an `unsigned`. -/
def fsizeOf (f : FileImage) : Nat := (f.tell % 4294967296).toNat

/-- Source lines 126-148, entered with the result `r` of `parse` and the steps
`pre` taken so far: the status check, `mxCreateDoubleMatrix(sy,sx,mxREAL)`
(a zero matrix) and the copy loop. -/
def mexFinish (pre : List Event) (r : ParseOut) : Run :=
  if r.ok ≠ 0 then Error pre "Error: can't parse file"
  else if r.sy < 0 ∨ r.sx < 0 then ⟨pre ++ [Event.create r.sy r.sx], Outcome.undefined⟩
  else
    match materialize r.sx r.sy r.outdata r.outnan
        (List.replicate (r.sy.toNat * r.sx.toNat) 0, []) with
    | none => ⟨pre ++ [Event.create r.sy r.sx], Outcome.undefined⟩
    | some (mptr, stores) =>
      ⟨pre ++ [Event.create r.sy r.sx] ++ stores.map Event.store,
        Outcome.ok ⟨r.sy.toNat, r.sx.toNat, mptr⟩⟩

/-- Source lines 89-148, entered with `fixedcol` settled: the class check of
the file name, reading the file into `buffer`, `parse`, and `mexFinish`.
`mxGetString(prhs[0],filename,MAXFNAME)` keeps the first `MAXFNAME-1`
characters. `fsize` is `unsigned` and `fsize+1` is computed in `unsigned`, so
the block of line 106 has `msize = (fsize+1) mod 2^32` bytes. `fread` (line
111) stores the bytes it reads into the block and `buffer[fsize]=0` (line 120)
stores the terminator: a store past the `msize` bytes of the block has no
defined result. -/
def mexBody (env : Env) (a0 : MxArray) (fixedcol : Int) : Run :=
  if a0.classID ≠ ClassID.char then Error [] "Error: filename must be a string"
  else
    let filename := a0.chars.take (MAXFNAME - 1)
    match env.fopen filename with
    | none => Error [Event.fopen filename] "Error: can't open file"
    | some f =>
      let fsize := fsizeOf f
      let msize := (fsize + 1) % 4294967296
      if env.malloc msize = false then
        Error [Event.fopen filename] "Error: can't allocate enough memory"
      else
        let data := f.bytes.take fsize
        if msize < data.length then ⟨[Event.fopen filename], Outcome.undefined⟩
        else if data.length ≠ fsize then
          Error [Event.fopen filename] "Error: can't read the file"
        else if msize ≤ fsize then ⟨[Event.fopen filename], Outcome.undefined⟩
        else
          let buffer := data ++ [0]
          mexFinish [Event.fopen filename, Event.parse buffer fixedcol]
            (env.parse buffer fixedcol)

/-- The gateway `mexFunction(nlhs, plhs, nrhs, prhs)`; `nrhs` is the length of
`prhs`: the pattern `[a0]` is `nrhs==1`, `[a0, a1]` is `nrhs==2`, any other
length fails the check of line 69. Lines 63-87 are here, the rest is
`mexBody`. -/
def mexFunction (env : Env) (nlhs : Int) (prhs : List MxArray) : Run :=
  if nlhs ≠ 1 then Error Syntax "Missing output argument"
  else
    match prhs with
    | [a0] => mexBody env a0 0
    | [a0, a1] =>
      if a1.classID ≠ ClassID.double ∨ a1.m ≠ 1 ∨ a1.n ≠ 1 then
        Error Syntax "Invalid number of columns"
      else mexBody env a0 (doubleToInt (a1.pr.headD 0))
    | _ => Error Syntax "Invalid input argument"

/-! ## Auxiliary definitions of the proofs -/

/-- The pairs `(y, x)` in the order the two loops visit them. -/
def loopPairs (sx sy : Int) : List (Nat × Nat) :=
  List.product (List.range sy.toNat) (List.range sx.toNat)

/-- The 64-bit pattern the loop stores for the source index `i`. -/
def cellValue (outdata : List Nat) (outnan : List Bool) (i : Nat) : Nat :=
  if outnan[i]? = some true then nanBits else outdata[i]?.getD 0

/-! ## Arguments and hosts of the example calls -/

/-- A file-name argument: the 1-by-1 character array `f`. -/
def nameArg : MxArray := ⟨ClassID.char, 1, 1, [], ['f']⟩

/-- A 1-by-1 `double` argument with the given bits. -/
def scalarArg (bits : Nat) : MxArray := ⟨ClassID.double, 1, 1, [bits], []⟩

/-- A host with the three-byte file `1 2` and a `parse` that returns the
one-row result `[7, NaN]`. -/
def smallEnv : Env :=
  ⟨fun _ => some ⟨3, [49, 32, 50]⟩, fun _ => true, fun _ _ => ⟨0, 2, 1, [7, 8], [false, true]⟩⟩

/-- A result of `parse` with `65536` columns, `32769` rows, no NaN. -/
def wideParse : ParseOut :=
  ⟨0, 65536, 32769, List.replicate (65536 * 32769) 0, List.replicate (65536 * 32769) false⟩

/-- A host with an empty file and a `parse` that returns `wideParse`. -/
def wideEnv : Env := ⟨fun _ => some ⟨0, []⟩, fun _ => true, fun _ _ => wideParse⟩

/-- A result of `parse` with `65536` columns, `32769` rows, every cell NaN. -/
def flaggedParse : ParseOut :=
  ⟨0, 65536, 32769, List.replicate (65536 * 32769) 0, List.replicate (65536 * 32769) true⟩

/-- A host with an empty file and a `parse` that returns `flaggedParse`. -/
def flaggedEnv : Env := ⟨fun _ => some ⟨0, []⟩, fun _ => true, fun _ _ => flaggedParse⟩

/-- A host with a one-byte file and a `parse` that fails with status 1. -/
def failEnv : Env :=
  ⟨fun _ => some ⟨1, [120]⟩, fun _ => true, fun _ _ => ⟨1, 0, 0, [], []⟩⟩

/-- A host with no file at all. -/
def noFileEnv : Env := ⟨fun _ => none, fun _ => true, fun _ _ => ⟨0, 0, 0, [], []⟩⟩

/-- A host whose file reports five bytes and delivers two. -/
def shortEnv : Env :=
  ⟨fun _ => some ⟨5, [49, 10]⟩, fun _ => true, fun _ _ => ⟨0, 0, 0, [], []⟩⟩

/-- A file of `2^32 + 3` bytes: `1 2` followed by `2^32` line feeds. -/
def hugeFile : FileImage := ⟨4294967299, [49, 32, 50] ++ List.replicate 4294967296 10⟩

/-- A host whose file is `hugeFile` and whose `parse` returns an empty result. -/
def hugeEnv : Env := ⟨fun _ => some hugeFile, fun _ => true, fun _ _ => ⟨0, 0, 0, [], []⟩⟩

theorem wrap32_of_range (z : Int) (h1 : -2147483648 ≤ z) (h2 : z < 2147483648) :
    wrap32 z = z := by
  unfold wrap32
  omega

theorem mul_add_lt (a b y x : Nat) (hy : y < b) (hx : x < a) : y * a + x < b * a := by
  have h : (y + 1) * a ≤ b * a := Nat.mul_le_mul_right a hy
  rw [Nat.add_mul, Nat.one_mul] at h
  omega

/-- Under `a * b ≤ 2 ^ 31` the `int` computation of `y*sx+x` does not wrap. -/
theorem srcIndex_eq (a b y x : Nat) (hab : a * b ≤ 2147483648) (hy : y < b) (hx : x < a) :
    srcIndex (a : Int) y x = ((y * a + x : Nat) : Int) := by
  have h1 : y * a + x < b * a := mul_add_lt a b y x hy hx
  have h2 : b * a = a * b := Nat.mul_comm b a
  have h3 : ((y : Int) * (a : Int)) = ((y * a : Nat) : Int) := by push_cast; rfl
  unfold srcIndex
  rw [h3, wrap32_of_range ((y * a : Nat) : Int) (by omega) (by omega),
    wrap32_of_range _ (by omega) (by omega)]
  push_cast
  rfl

/-- Under `a * b ≤ 2 ^ 31` the `int` computation of `x*sy+y` does not wrap. -/
theorem dstIndex_eq (a b y x : Nat) (hab : a * b ≤ 2147483648) (hy : y < b) (hx : x < a) :
    dstIndex (b : Int) y x = ((x * b + y : Nat) : Int) := by
  have h1 : x * b + y < a * b := mul_add_lt b a x y hx hy
  have h3 : ((x : Int) * (b : Int)) = ((x * b : Nat) : Int) := by push_cast; rfl
  unfold dstIndex
  rw [h3, wrap32_of_range ((x * b : Nat) : Int) (by omega) (by omega),
    wrap32_of_range _ (by omega) (by omega)]
  push_cast
  rfl

/-- The map `(x, y) ↦ x*b+y` with `y < b` is injective. -/
theorem dst_inj (b x y x' y' : Nat) (hy : y < b) (hy' : y' < b)
    (h : x * b + y = x' * b + y') : x = x' ∧ y = y' := by
  have hb : 0 < b := by omega
  have e1 : (x * b + y) / b = x := by
    rw [Nat.add_comm, Nat.add_mul_div_right _ _ hb, Nat.div_eq_of_lt hy, Nat.zero_add]
  have e2 : (x' * b + y') / b = x' := by
    rw [Nat.add_comm, Nat.add_mul_div_right _ _ hb, Nat.div_eq_of_lt hy', Nat.zero_add]
  have hx : x = x' := by rw [← e1, ← e2, h]
  subst hx
  exact ⟨rfl, by omega⟩

/-! ## The loop as a sequence of stores -/

/-- A fold whose every step stores `v p` at index `d p`, the indices pairwise
distinct and inside the array: it completes, leaves every `v p` at `d p`,
leaves the other cells alone, and logs the indices in order. -/
theorem foldlM_stores {ι : Type} (f : LoopState → ι → Option LoopState) (d v : ι → Nat)
    (N : Nat) (l : List ι)
    (hf : ∀ p ∈ l, ∀ st : LoopState, st.1.length = N →
      f st p = some (st.1.set (d p) (v p), st.2 ++ [d p]))
    (hd : ∀ p ∈ l, d p < N) (hinj : (l.map d).Nodup)
    (st : LoopState) (hst : st.1.length = N) :
    ∃ m, l.foldlM f st = some (m, st.2 ++ l.map d) ∧ m.length = N ∧
      (∀ p ∈ l, m[d p]? = some (v p)) ∧ (∀ j, j ∉ l.map d → m[j]? = st.1[j]?) := by
  induction l generalizing st with
  | nil => exact ⟨st.1, by simp, hst, by simp, by simp⟩
  | cons p l ih =>
    have hp := hf p (List.mem_cons_self p l) st hst
    rw [List.map_cons, List.nodup_cons] at hinj
    obtain ⟨m, h1, h2, h3, h4⟩ := ih (fun q hq => hf q (List.mem_cons_of_mem p hq))
      (fun q hq => hd q (List.mem_cons_of_mem p hq)) hinj.2
      (st.1.set (d p) (v p), st.2 ++ [d p]) (by simpa using hst)
    refine ⟨m, ?_, h2, ?_, ?_⟩
    · rw [List.foldlM_cons, hp]
      simpa using h1
    · intro q hq
      rcases List.mem_cons.1 hq with rfl | hq
      · rw [h4 _ hinj.1]
        have : d q < st.1.length := by rw [hst]; exact hd q (List.mem_cons_self q l)
        simp [List.getElem?_set, this]
      · exact h3 q hq
    · intro j hj
      rw [List.map_cons, List.mem_cons, not_or] at hj
      rw [h4 j hj.2]
      exact List.getElem?_set_ne (fun e => hj.1 e.symm)

/-- A fold over a list of lists is the nested fold. -/
theorem foldlM_flatMap {α β γ : Type} (g : α → List β) (f : γ → β → Option γ) (l : List α)
    (s : γ) :
    (l.flatMap g).foldlM f s = l.foldlM (fun s a => (g a).foldlM f s) s := by
  induction l generalizing s with
  | nil => simp
  | cons a l ih =>
    rw [List.flatMap_cons, List.foldlM_append, List.foldlM_cons]
    cases h : List.foldlM f s (g a) with
    | none => simp
    | some s1 => simpa using ih s1

/-- The nested loops are one pass over `loopPairs`. -/
theorem materialize_eq_fold (sx sy : Int) (outdata : List Nat) (outnan : List Bool)
    (st : LoopState) :
    materialize sx sy outdata outnan st =
      (loopPairs sx sy).foldlM (fun s p => storeCell sx sy outdata outnan p.1 p.2 s) st := by
  unfold materialize loopPairs List.product rowLoop
  rw [foldlM_flatMap]
  simp only [List.foldlM_map]

theorem readAt_natCast {α : Type} (l : List α) (n : Nat) : readAt l (n : Int) = l[n]? := by
  simp [readAt]

theorem writeAt_natCast {α : Type} (l : List α) (n : Nat) (v : α) (h : n < l.length) :
    writeAt l (n : Int) v = some (l.set n v) := by
  simp [writeAt, h]

/-- One execution of the loop body, when no index wraps and the buffers have
`a * b` elements. -/
theorem storeCell_eq (a b : Nat) (outdata : List Nat) (outnan : List Bool) (y x : Nat)
    (st : LoopState) (hab : a * b ≤ 2147483648) (hy : y < b) (hx : x < a)
    (hd : outdata.length = a * b) (hn : outnan.length = a * b) (hst : st.1.length = a * b) :
    storeCell (a : Int) (b : Int) outdata outnan y x st =
      some (st.1.set (x * b + y) (cellValue outdata outnan (y * a + x)), st.2 ++ [x * b + y]) := by
  have h1 : y * a + x < a * b := by
    have := mul_add_lt a b y x hy hx
    rwa [Nat.mul_comm b a] at this
  have h2 : x * b + y < a * b := mul_add_lt b a x y hx hy
  obtain ⟨nb, hn1⟩ : ∃ nb, outnan[y * a + x]? = some nb :=
    ⟨_, List.getElem?_eq_getElem (by omega)⟩
  obtain ⟨db, hd1⟩ : ∃ db, outdata[y * a + x]? = some db :=
    ⟨_, List.getElem?_eq_getElem (by omega)⟩
  unfold storeCell cellValue
  rw [srcIndex_eq a b y x hab hy hx, dstIndex_eq a b y x hab hy hx, readAt_natCast,
    readAt_natCast, hn1, hd1]
  have hlen : x * b + y < st.1.length := by omega
  generalize x * b + y = d at hlen ⊢
  cases nb <;> simp [writeAt_natCast _ _ _ hlen]

theorem mem_loopPairs (a b : Nat) (p : Nat × Nat) :
    p ∈ loopPairs (a : Int) (b : Int) ↔ p.1 < b ∧ p.2 < a := by
  obtain ⟨y, x⟩ := p
  simp [loopPairs, List.mem_product, List.mem_range]

theorem nodup_loopPairs_dst (a b : Nat) :
    ((loopPairs (a : Int) (b : Int)).map (fun p => p.2 * b + p.1)).Nodup := by
  refine List.Nodup.map_on ?_ ?_
  · intro p hp q hq h
    rw [mem_loopPairs] at hp hq
    obtain ⟨e1, e2⟩ := dst_inj b p.2 p.1 q.2 q.1 hp.1 hq.1 h
    exact Prod.ext e2 e1
  · unfold loopPairs
    exact List.Nodup.product (List.nodup_range _) (List.nodup_range _)

/-- The whole loop, when no index wraps (`a * b ≤ 2 ^ 31`) and the three
arrays have `a * b` elements: it completes, the cell `x*b+y` holds the value of
the source index `y*a+x`, and the stores are those of `loopPairs`, in order. -/
theorem materialize_spec (a b : Nat) (outdata : List Nat) (outnan : List Bool)
    (st : LoopState) (hab : a * b ≤ 2147483648)
    (hd : outdata.length = a * b) (hn : outnan.length = a * b) (hst : st.1.length = a * b) :
    ∃ m, materialize (a : Int) (b : Int) outdata outnan st =
        some (m, st.2 ++ (loopPairs (a : Int) (b : Int)).map (fun p => p.2 * b + p.1)) ∧
      m.length = a * b ∧
      ∀ y x, y < b → x < a → m[x * b + y]? = some (cellValue outdata outnan (y * a + x)) := by
  rw [materialize_eq_fold]
  obtain ⟨m, h1, h2, h3, _⟩ := foldlM_stores
    (fun s p => storeCell (a : Int) (b : Int) outdata outnan p.1 p.2 s)
    (fun p => p.2 * b + p.1) (fun p => cellValue outdata outnan (p.1 * a + p.2)) (a * b)
    (loopPairs (a : Int) (b : Int))
    (fun p hp s hs => by
      rw [mem_loopPairs] at hp
      exact storeCell_eq a b outdata outnan p.1 p.2 s hab hp.1 hp.2 hd hn hs)
    (fun p hp => by
      rw [mem_loopPairs] at hp
      exact mul_add_lt b a p.2 p.1 hp.2 hp.1)
    (nodup_loopPairs_dst a b) st hst
  exact ⟨m, h1, h2, fun y x hy hx => h3 (y, x) ((mem_loopPairs a b (y, x)).2 ⟨hy, hx⟩)⟩

/-! ## Shape of a call -/

/-- The log of `mexFinish` is `pre` followed by matrix events only. -/
theorem mexFinish_log (pre : List Event) (r : ParseOut) :
    ∃ post, (mexFinish pre r).log = pre ++ post ∧
      ∀ e ∈ post, (∃ sy sx, e = Event.create sy sx) ∨ ∃ i, e = Event.store i := by
  unfold mexFinish
  split_ifs with h1 h2
  · exact ⟨[], by simp, by simp⟩
  · exact ⟨[Event.create r.sy r.sx], by simp, by simp⟩
  · split
    · exact ⟨[Event.create r.sy r.sx], by simp, by simp⟩
    · rename_i mptr stores _
      refine ⟨[Event.create r.sy r.sx] ++ stores.map Event.store, by simp, ?_⟩
      intro e he
      simp only [List.singleton_append, List.mem_cons, List.mem_map] at he
      rcases he with he | ⟨i, _, hi⟩
      · exact Or.inl ⟨_, _, he⟩
      · exact Or.inr ⟨i, hi.symm⟩

theorem mexBody_not_char (env : Env) (a0 : MxArray) (fixedcol : Int)
    (h : a0.classID ≠ ClassID.char) :
    mexBody env a0 fixedcol = ⟨[], Outcome.error "Error: filename must be a string"⟩ := by
  simp [mexBody, h]

theorem mexBody_no_open (env : Env) (a0 : MxArray) (fixedcol : Int)
    (h : a0.classID = ClassID.char) (ho : env.fopen (a0.chars.take (MAXFNAME - 1)) = none) :
    mexBody env a0 fixedcol =
      ⟨[Event.fopen (a0.chars.take (MAXFNAME - 1))], Outcome.error "Error: can't open file"⟩ := by
  simp [mexBody, h, ho]

theorem mexBody_no_memory (env : Env) (a0 : MxArray) (fixedcol : Int) (f : FileImage)
    (h : a0.classID = ClassID.char) (ho : env.fopen (a0.chars.take (MAXFNAME - 1)) = some f)
    (hm : env.malloc ((fsizeOf f + 1) % 4294967296) = false) :
    mexBody env a0 fixedcol = ⟨[Event.fopen (a0.chars.take (MAXFNAME - 1))],
      Outcome.error "Error: can't allocate enough memory"⟩ := by
  simp [mexBody, h, ho, hm]

/-- The bytes read do not fit the block of `(fsize+1) mod 2^32` bytes. -/
theorem mexBody_overrun (env : Env) (a0 : MxArray) (fixedcol : Int) (f : FileImage)
    (h : a0.classID = ClassID.char) (ho : env.fopen (a0.chars.take (MAXFNAME - 1)) = some f)
    (hm : env.malloc ((fsizeOf f + 1) % 4294967296) = true)
    (hfit : (fsizeOf f + 1) % 4294967296 < (f.bytes.take (fsizeOf f)).length) :
    mexBody env a0 fixedcol =
      ⟨[Event.fopen (a0.chars.take (MAXFNAME - 1))], Outcome.undefined⟩ := by
  simp only [mexBody, h, ho, hm]
  simp only [ne_eq, not_true_eq_false, if_false, Bool.true_eq_false]
  rw [if_pos hfit]

theorem mexBody_short_read (env : Env) (a0 : MxArray) (fixedcol : Int) (f : FileImage)
    (h : a0.classID = ClassID.char) (ho : env.fopen (a0.chars.take (MAXFNAME - 1)) = some f)
    (hm : env.malloc ((fsizeOf f + 1) % 4294967296) = true)
    (hfit : (f.bytes.take (fsizeOf f)).length ≤ (fsizeOf f + 1) % 4294967296)
    (hr : (f.bytes.take (fsizeOf f)).length ≠ fsizeOf f) :
    mexBody env a0 fixedcol = ⟨[Event.fopen (a0.chars.take (MAXFNAME - 1))],
      Outcome.error "Error: can't read the file"⟩ := by
  simp only [mexBody, h, ho, hm]
  simp only [ne_eq, not_true_eq_false, if_false, Bool.true_eq_false]
  rw [if_neg (Nat.not_lt.2 hfit), if_pos hr]

theorem mexBody_read (env : Env) (a0 : MxArray) (fixedcol : Int) (f : FileImage)
    (h : a0.classID = ClassID.char) (ho : env.fopen (a0.chars.take (MAXFNAME - 1)) = some f)
    (hm : env.malloc ((fsizeOf f + 1) % 4294967296) = true)
    (hfit : fsizeOf f + 1 < 4294967296)
    (hr : (f.bytes.take (fsizeOf f)).length = fsizeOf f) :
    mexBody env a0 fixedcol =
      mexFinish [Event.fopen (a0.chars.take (MAXFNAME - 1)),
          Event.parse (f.bytes.take (fsizeOf f) ++ [0]) fixedcol]
        (env.parse (f.bytes.take (fsizeOf f) ++ [0]) fixedcol) := by
  have hmod : (fsizeOf f + 1) % 4294967296 = fsizeOf f + 1 := Nat.mod_eq_of_lt hfit
  simp only [mexBody, h, ho, hm]
  simp only [ne_eq, not_true_eq_false, if_false, Bool.true_eq_false]
  rw [if_neg (by rw [hmod, hr]; omega), if_neg (not_not.2 hr), if_neg (by rw [hmod]; omega)]

/-- The ways `mexBody` can go: stopped before `fopen`, stopped after `fopen`
and before `parse`, or continued by `mexFinish` on the result of `parse`. -/
theorem mexBody_cases (env : Env) (a0 : MxArray) (fixedcol : Int) :
    (∃ msg, mexBody env a0 fixedcol = ⟨[], Outcome.error msg⟩) ∨
    (∃ name out, mexBody env a0 fixedcol = ⟨[Event.fopen name], out⟩) ∨
    (∃ name buffer, mexBody env a0 fixedcol =
      mexFinish [Event.fopen name, Event.parse buffer fixedcol] (env.parse buffer fixedcol)) := by
  by_cases h : a0.classID = ClassID.char
  · cases ho : env.fopen (a0.chars.take (MAXFNAME - 1)) with
    | none => exact Or.inr (Or.inl ⟨_, _, mexBody_no_open env a0 fixedcol h ho⟩)
    | some f =>
      cases hm : env.malloc ((fsizeOf f + 1) % 4294967296) with
      | false => exact Or.inr (Or.inl ⟨_, _, mexBody_no_memory env a0 fixedcol f h ho hm⟩)
      | true =>
        by_cases hfit : (f.bytes.take (fsizeOf f)).length ≤ (fsizeOf f + 1) % 4294967296
        · by_cases hr : (f.bytes.take (fsizeOf f)).length = fsizeOf f
          · by_cases hlt : fsizeOf f + 1 < 4294967296
            · exact Or.inr (Or.inr ⟨_, _, mexBody_read env a0 fixedcol f h ho hm hlt hr⟩)
            · have hz : (fsizeOf f + 1) % 4294967296 = 0 := by
                have : fsizeOf f < 4294967296 := by unfold fsizeOf; omega
                omega
              rw [hz, hr] at hfit
              omega
          · exact Or.inr (Or.inl ⟨_, _,
              mexBody_short_read env a0 fixedcol f h ho hm hfit hr⟩)
        · exact Or.inr (Or.inl ⟨_, _,
            mexBody_overrun env a0 fixedcol f h ho hm (Nat.not_le.1 hfit)⟩)
  · exact Or.inl ⟨_, mexBody_not_char env a0 fixedcol h⟩

/-- A call of `mexBody` that invoked `parse` ends as `mexFinish` on the result. -/
theorem mexBody_of_parse (env : Env) (a0 : MxArray) (fixedcol : Int) (buffer : List Nat)
    (k : Int) (h : Event.parse buffer k ∈ (mexBody env a0 fixedcol).log) :
    k = fixedcol ∧ ∃ name, mexBody env a0 fixedcol =
      mexFinish [Event.fopen name, Event.parse buffer k] (env.parse buffer k) := by
  rcases mexBody_cases env a0 fixedcol with ⟨msg, e⟩ | ⟨name, out, e⟩ | ⟨name, buf, e⟩
  · rw [e] at h
    simp at h
  · rw [e] at h
    simp at h
  · obtain ⟨post, hlog, hpost⟩ := mexFinish_log [Event.fopen name, Event.parse buf fixedcol]
      (env.parse buf fixedcol)
    rw [e, hlog] at h
    simp only [List.mem_append, List.mem_cons, List.mem_singleton, List.not_mem_nil,
      or_false, reduceCtorEq, false_or, Event.parse.injEq] at h
    rcases h with ⟨hb, hk⟩ | h
    · subst hb hk
      exact ⟨rfl, name, e⟩
    · rcases hpost _ h with ⟨_, _, e⟩ | ⟨_, e⟩ <;> cases e

/-- A call with one result and one argument. -/
theorem mexFunction_one (env : Env) (a0 : MxArray) :
    mexFunction env 1 [a0] = mexBody env a0 0 := by
  simp [mexFunction]

/-- A call with one result and two arguments, the second a 1-by-1 `double`. -/
theorem mexFunction_two (env : Env) (a0 a1 : MxArray) (hc : a1.classID = ClassID.double)
    (hm : a1.m = 1) (hn : a1.n = 1) :
    mexFunction env 1 [a0, a1] = mexBody env a0 (doubleToInt (a1.pr.headD 0)) := by
  simp [mexFunction, hc, hm, hn]

/-- A call of `mexFunction` that invoked `parse` ends as `mexFinish` on the
result. -/
theorem mexFunction_of_parse (env : Env) (nlhs : Int) (prhs : List MxArray)
    (buffer : List Nat) (k : Int)
    (h : Event.parse buffer k ∈ (mexFunction env nlhs prhs).log) :
    ∃ name, mexFunction env nlhs prhs =
      mexFinish [Event.fopen name, Event.parse buffer k] (env.parse buffer k) := by
  unfold mexFunction at h ⊢
  split_ifs at h ⊢ with h1
  · simp at h
  · split at h
    · exact (mexBody_of_parse env _ _ buffer k h).2
    · split_ifs at h ⊢ with h2
      · simp at h
      · exact (mexBody_of_parse env _ _ buffer k h).2
    · simp at h

/-! ## The copy into the output matrix -/

/-- The call after a successful `parse` whose result is well formed and has at
most `2 ^ 31` cells: the matrix is returned, and every cell holds the value of
its source index. -/
theorem mexFinish_ok (pre : List Event) (r : ParseOut) (hok : r.ok = 0)
    (hsx : 0 ≤ r.sx) (hsy : 0 ≤ r.sy) (hb : r.sx * r.sy ≤ 2147483648)
    (hd : (r.outdata.length : Int) = r.sx * r.sy)
    (hn : (r.outnan.length : Int) = r.sx * r.sy) :
    ∃ m, mexFinish pre r =
        ⟨pre ++ [Event.create r.sy r.sx] ++
            ((loopPairs r.sx r.sy).map (fun p => p.2 * r.sy.toNat + p.1)).map Event.store,
          Outcome.ok ⟨r.sy.toNat, r.sx.toNat, m⟩⟩ ∧
      m.length = r.sx.toNat * r.sy.toNat ∧
      ∀ y x, y < r.sy.toNat → x < r.sx.toNat →
        m[x * r.sy.toNat + y]? =
          some (cellValue r.outdata r.outnan (y * r.sx.toNat + x)) := by
  obtain ⟨a, ha⟩ := Int.eq_ofNat_of_zero_le hsx
  obtain ⟨b, hb'⟩ := Int.eq_ofNat_of_zero_le hsy
  rw [ha, hb'] at hb hd hn ⊢
  simp only [Int.toNat_ofNat]
  have hab : a * b ≤ 2147483648 := by exact_mod_cast hb
  have hd' : r.outdata.length = a * b := by exact_mod_cast hd
  have hn' : r.outnan.length = a * b := by exact_mod_cast hn
  obtain ⟨m, h1, h2, h3⟩ := materialize_spec a b r.outdata r.outnan
    (List.replicate (b * a) 0, []) hab hd' hn' (by simp [Nat.mul_comm])
  refine ⟨m, ?_, h2, h3⟩
  unfold mexFinish
  rw [if_neg (by simp [hok]), if_neg (by rw [ha, hb']; omega)]
  simp only [ha, hb', Int.toNat_ofNat, h1, List.nil_append]

/-- If an element of the list stops the fold whatever the state, the fold
stops. -/
theorem foldlM_none_of_mem {α β : Type} (f : β → α → Option β) (l : List α) (k : α)
    (hk : k ∈ l) (hf : ∀ s, f s k = none) (s : β) : l.foldlM f s = none := by
  induction l generalizing s with
  | nil => cases hk
  | cons a l ih =>
    rw [List.foldlM_cons]
    rcases List.mem_cons.1 hk with rfl | hk
    · rw [hf s]; rfl
    · cases h : f s a with
      | none => rfl
      | some s1 => exact ih hk s1

/-- A store through a negative index has no defined result. -/
theorem storeCell_none (sx sy : Int) (outdata : List Nat) (outnan : List Bool) (y x : Nat)
    (st : LoopState) (h : dstIndex sy y x < 0) :
    storeCell sx sy outdata outnan y x st = none := by
  have hw : ∀ v, writeAt st.1 (dstIndex sy y x) v = none := by
    intro v
    unfold writeAt
    rw [if_neg (by omega)]
  unfold storeCell
  cases h1 : readAt outnan (srcIndex sx y x) with
  | none => rfl
  | some isnan =>
    cases isnan with
    | true => simp [hw]
    | false =>
      cases h2 : readAt outdata (srcIndex sx y x) with
      | none => simp
      | some v => simp [hw]

/-- The loop has no defined result when one of its pairs wraps the destination
index below zero. -/
theorem materialize_none (sx sy : Int) (outdata : List Nat) (outnan : List Bool)
    (st : LoopState) (y x : Nat) (hy : y < sy.toNat) (hx : x < sx.toNat)
    (h : dstIndex sy y x < 0) : materialize sx sy outdata outnan st = none := by
  unfold materialize
  refine foldlM_none_of_mem _ _ y (List.mem_range.2 hy) (fun s => ?_) st
  unfold rowLoop
  exact foldlM_none_of_mem _ _ x (List.mem_range.2 hx)
    (fun s1 => storeCell_none sx sy outdata outnan y x s1 h) s

theorem mexFinish_undefined (pre : List Event) (r : ParseOut) (hok : r.ok = 0)
    (hsx : 0 ≤ r.sx) (hsy : 0 ≤ r.sy)
    (hm : materialize r.sx r.sy r.outdata r.outnan
      (List.replicate (r.sy.toNat * r.sx.toNat) 0, []) = none) :
    mexFinish pre r = ⟨pre ++ [Event.create r.sy r.sx], Outcome.undefined⟩ := by
  unfold mexFinish
  rw [if_neg (by simp [hok]), if_neg (by omega), hm]

/-! ## C1: the copy is a relayout of the values -/

/-- C1, as stated, fails: the result `wideParse` of `parse` is successful, has
`sx ≥ 0`, `sy ≥ 0` and both buffers of length `sx*sy`, and the call returns no
matrix, because `x*sy+y` wraps in `int` at `y = 0`, `x = 65535`. -/
theorem copies_values_counterexample :
    Event.parse [0] 0 ∈ (mexFunction wideEnv 1 [nameArg]).log ∧
    (wideEnv.parse [0] 0).ok = 0 ∧ 0 ≤ (wideEnv.parse [0] 0).sx ∧
    0 ≤ (wideEnv.parse [0] 0).sy ∧
    ((wideEnv.parse [0] 0).outdata.length : Int) =
      (wideEnv.parse [0] 0).sx * (wideEnv.parse [0] 0).sy ∧
    ((wideEnv.parse [0] 0).outnan.length : Int) =
      (wideEnv.parse [0] 0).sx * (wideEnv.parse [0] 0).sy ∧
    (mexFunction wideEnv 1 [nameArg]).out = Outcome.undefined := by
  have hm : ∀ vs fs st, materialize 65536 32769 vs fs st = none := fun vs fs st =>
    materialize_none 65536 32769 vs fs st 0 65535 (by decide) (by decide) (by decide)
  have hrun : mexFunction wideEnv 1 [nameArg] =
      ⟨[Event.fopen ['f'], Event.parse [0] 0] ++ [Event.create 32769 65536],
        Outcome.undefined⟩ := by
    rw [mexFunction_one, mexBody_read wideEnv nameArg 0 ⟨0, []⟩ rfl rfl rfl (by decide) rfl]
    exact mexFinish_undefined _ wideParse rfl (by decide) (by decide) (hm _ _ _)
  have hlen : ((List.replicate (65536 * 32769) (0 : Nat)).length : Int) = 65536 * 32769 := by
    rw [List.length_replicate]; rfl
  have hlen2 : ((List.replicate (65536 * 32769) false).length : Int) = 65536 * 32769 := by
    rw [List.length_replicate]; rfl
  rw [hrun]
  exact ⟨by simp, rfl, by decide, by decide, hlen, hlen2, rfl⟩

/-- C1, amended with the bound `sx*sy ≤ 2^31`: when `parse` was invoked and
returned status 0 with `sx ≥ 0`, `sy ≥ 0`, `sx*sy ≤ 2^31` and both buffers of
length `sx*sy`, the call returns a matrix with `sy` rows and `sx` columns whose
cell at column-major index `x*sy+y` equals `outdata[y*sx+x]` wherever
`outnan[y*sx+x]` is false. -/
theorem mexFunction_copies_values (env : Env) (nlhs : Int) (prhs : List MxArray)
    (buffer : List Nat) (fixedcol : Int) (r : ParseOut)
    (hcall : Event.parse buffer fixedcol ∈ (mexFunction env nlhs prhs).log)
    (hr : env.parse buffer fixedcol = r) (hok : r.ok = 0)
    (hsx : 0 ≤ r.sx) (hsy : 0 ≤ r.sy) (hb : r.sx * r.sy ≤ 2147483648)
    (hd : (r.outdata.length : Int) = r.sx * r.sy)
    (hn : (r.outnan.length : Int) = r.sx * r.sy) :
    ∃ M, (mexFunction env nlhs prhs).out = Outcome.ok M ∧
      M.rows = r.sy.toNat ∧ M.cols = r.sx.toNat ∧ M.data.length = M.cols * M.rows ∧
      ∀ y x, y < M.rows → x < M.cols → r.outnan[y * M.cols + x]? = some false →
        (∃ v, r.outdata[y * M.cols + x]? = some v ∧ M.data[x * M.rows + y]? = some v) := by
  obtain ⟨name, hrun⟩ := mexFunction_of_parse env nlhs prhs buffer fixedcol hcall
  obtain ⟨m, h1, h2, h3⟩ := mexFinish_ok [Event.fopen name, Event.parse buffer fixedcol] r
    hok hsx hsy hb hd hn
  rw [hrun, hr, h1]
  refine ⟨⟨r.sy.toNat, r.sx.toNat, m⟩, rfl, rfl, rfl, h2, ?_⟩
  intro y x hy hx hnan
  have hlt : y * r.sx.toNat + x < r.outdata.length := by
    have e : r.outdata.length = r.sx.toNat * r.sy.toNat := by
      have : ((r.sx.toNat * r.sy.toNat : Nat) : Int) = r.sx * r.sy := by
        push_cast
        rw [Int.toNat_of_nonneg hsx, Int.toNat_of_nonneg hsy]
      omega
    have := mul_add_lt r.sx.toNat r.sy.toNat y x hy hx
    rw [e, Nat.mul_comm r.sx.toNat r.sy.toNat]
    exact this
  refine ⟨r.outdata[y * r.sx.toNat + x], List.getElem?_eq_getElem hlt, ?_⟩
  have h4 := h3 y x hy hx
  simp only [cellValue, hnan, List.getElem?_eq_getElem hlt] at h4
  simpa using h4

/-- C1 at the call of `smallEnv`: a 1-by-2 matrix whose cell of column 0 is the
value `7` that `parse` delivered. -/
theorem mexFunction_copies_values_witness :
    ∃ M, (mexFunction smallEnv 1 [nameArg]).out = Outcome.ok M ∧
      M.rows = 1 ∧ M.cols = 2 ∧ M.data.length = M.cols * M.rows ∧
      ∀ y x, y < M.rows → x < M.cols →
        ([false, true] : List Bool)[y * M.cols + x]? = some false →
        (∃ v, ([7, 8] : List Nat)[y * M.cols + x]? = some v ∧
          M.data[x * M.rows + y]? = some v) :=
  mexFunction_copies_values smallEnv 1 [nameArg] [49, 32, 50, 0] 0
    ⟨0, 2, 1, [7, 8], [false, true]⟩ (by decide) rfl rfl (by decide) (by decide) (by decide)
    (by decide) (by decide)

/-! ## C2: the NaN cells -/

/-- C2, as stated, fails: the result `flaggedParse` of `parse` is successful
and well formed, its cell `(0, 0)` is flagged NaN, and the call returns no
matrix, because the product `x*sy` overflows `int` at `y = 0`, `x = 65535`. -/
theorem writes_sentinel_counterexample :
    Event.parse [0] 0 ∈ (mexFunction flaggedEnv 1 [nameArg]).log ∧
    (flaggedEnv.parse [0] 0).ok = 0 ∧ 0 ≤ (flaggedEnv.parse [0] 0).sx ∧
    0 ≤ (flaggedEnv.parse [0] 0).sy ∧
    ((flaggedEnv.parse [0] 0).outdata.length : Int) =
      (flaggedEnv.parse [0] 0).sx * (flaggedEnv.parse [0] 0).sy ∧
    ((flaggedEnv.parse [0] 0).outnan.length : Int) =
      (flaggedEnv.parse [0] 0).sx * (flaggedEnv.parse [0] 0).sy ∧
    (flaggedEnv.parse [0] 0).outnan[0 * 65536 + 0]? = some true ∧
    (mexFunction flaggedEnv 1 [nameArg]).out = Outcome.undefined := by
  have hm : ∀ vs fs st, materialize 65536 32769 vs fs st = none := fun vs fs st =>
    materialize_none 65536 32769 vs fs st 0 65535 (by decide) (by decide) (by decide)
  have hrun : mexFunction flaggedEnv 1 [nameArg] =
      ⟨[Event.fopen ['f'], Event.parse [0] 0] ++ [Event.create 32769 65536],
        Outcome.undefined⟩ := by
    rw [mexFunction_one, mexBody_read flaggedEnv nameArg 0 ⟨0, []⟩ rfl rfl rfl (by decide) rfl]
    exact mexFinish_undefined _ flaggedParse rfl (by decide) (by decide) (hm _ _ _)
  have hlen : ((List.replicate (65536 * 32769) (0 : Nat)).length : Int) = 65536 * 32769 := by
    rw [List.length_replicate]; rfl
  have hlen2 : ((List.replicate (65536 * 32769) true).length : Int) = 65536 * 32769 := by
    rw [List.length_replicate]; rfl
  have hnan : (List.replicate (65536 * 32769) true)[0 * 65536 + 0]? = some true :=
    List.getElem?_replicate_of_lt (by decide)
  rw [hrun]
  exact ⟨by simp, rfl, by decide, by decide, hlen, hlen2, hnan, rfl⟩

/-- C2, amended with the bound `sx*sy ≤ 2^31` and the buffer lengths: when
`parse` was invoked and returned status 0 with `sx ≥ 0`, `sy ≥ 0`,
`sx*sy ≤ 2^31` and both buffers of length `sx*sy`, every cell `(y, x)` with
`outnan[y*sx+x]` true holds the 64-bit pattern `0xFFF6AC007FFEAD00` in the
returned matrix, whatever `outdata` holds, and that pattern is not
`0x7FF8000000000000`. -/
theorem mexFunction_writes_sentinel (env : Env) (nlhs : Int) (prhs : List MxArray)
    (buffer : List Nat) (fixedcol : Int) (r : ParseOut)
    (hcall : Event.parse buffer fixedcol ∈ (mexFunction env nlhs prhs).log)
    (hr : env.parse buffer fixedcol = r) (hok : r.ok = 0)
    (hsx : 0 ≤ r.sx) (hsy : 0 ≤ r.sy) (hb : r.sx * r.sy ≤ 2147483648)
    (hd : (r.outdata.length : Int) = r.sx * r.sy)
    (hn : (r.outnan.length : Int) = r.sx * r.sy) :
    ∃ M, (mexFunction env nlhs prhs).out = Outcome.ok M ∧
      M.rows = r.sy.toNat ∧ M.cols = r.sx.toNat ∧
      (∀ y x, y < M.rows → x < M.cols → r.outnan[y * M.cols + x]? = some true →
        M.data[x * M.rows + y]? = some 0xFFF6AC007FFEAD00) ∧
      nanBits = 0xFFF6AC007FFEAD00 ∧ nanBits ≠ 0x7FF8000000000000 := by
  obtain ⟨name, hrun⟩ := mexFunction_of_parse env nlhs prhs buffer fixedcol hcall
  obtain ⟨m, h1, _, h3⟩ := mexFinish_ok [Event.fopen name, Event.parse buffer fixedcol] r
    hok hsx hsy hb hd hn
  rw [hrun, hr, h1]
  refine ⟨⟨r.sy.toNat, r.sx.toNat, m⟩, rfl, rfl, rfl, ?_, by decide, by decide⟩
  intro y x hy hx hnan
  have h4 := h3 y x hy hx
  simp only [cellValue, hnan, if_true] at h4
  rw [h4]
  exact congrArg some (by decide)

/-- C2 at the call of `smallEnv`: the cell of column 1, flagged NaN, holds the
pattern. -/
theorem mexFunction_writes_sentinel_witness :
    ∃ M, (mexFunction smallEnv 1 [nameArg]).out = Outcome.ok M ∧
      M.rows = 1 ∧ M.cols = 2 ∧
      (∀ y x, y < M.rows → x < M.cols →
        ([false, true] : List Bool)[y * M.cols + x]? = some true →
        M.data[x * M.rows + y]? = some 0xFFF6AC007FFEAD00) ∧
      nanBits = 0xFFF6AC007FFEAD00 ∧ nanBits ≠ 0x7FF8000000000000 :=
  mexFunction_writes_sentinel smallEnv 1 [nameArg] [49, 32, 50, 0] 0
    ⟨0, 2, 1, [7, 8], [false, true]⟩ (by decide) rfl rfl (by decide) (by decide) (by decide)
    (by decide) (by decide)

/-! ## C3: a failed parse returns no matrix -/

/-- C3: when `parse` was invoked and returned a non-zero status, the call
fails with the message "Error: can't parse file", and the output matrix is
neither created nor written. -/
theorem parse_failure_aborts (env : Env) (nlhs : Int) (prhs : List MxArray)
    (buffer : List Nat) (fixedcol : Int)
    (hcall : Event.parse buffer fixedcol ∈ (mexFunction env nlhs prhs).log)
    (hfail : (env.parse buffer fixedcol).ok ≠ 0) :
    (mexFunction env nlhs prhs).out = Outcome.error "Error: can't parse file" ∧
      ∀ e ∈ (mexFunction env nlhs prhs).log,
        (∀ sy sx, e ≠ Event.create sy sx) ∧ ∀ i, e ≠ Event.store i := by
  obtain ⟨name, hrun⟩ := mexFunction_of_parse env nlhs prhs buffer fixedcol hcall
  rw [hrun]
  unfold mexFinish
  rw [if_pos hfail]
  refine ⟨rfl, ?_⟩
  intro e he
  simp only [List.mem_cons, List.mem_singleton, List.not_mem_nil, or_false] at he
  rcases he with rfl | rfl <;> exact ⟨fun _ _ h => (by cases h), fun _ h => (by cases h)⟩

/-- C3 at the call of `failEnv`. -/
theorem parse_failure_aborts_witness :
    (mexFunction failEnv 1 [nameArg]).out = Outcome.error "Error: can't parse file" ∧
      ∀ e ∈ (mexFunction failEnv 1 [nameArg]).log,
        (∀ sy sx, e ≠ Event.create sy sx) ∧ ∀ i, e ≠ Event.store i :=
  parse_failure_aborts failEnv 1 [nameArg] [120, 0] 0 (by decide) (by decide)

/-! ## C9: the indices of the loop -/

/-- Every cell index below `a * b` is the destination of exactly one pair. -/
theorem dst_bijective (a b n : Nat) (hab : a * b ≤ 2147483648) (hn : n < a * b) :
    ∃! p : Nat × Nat, (p.1 < b ∧ p.2 < a) ∧ dstIndex (b : Int) p.1 p.2 = (n : Int) := by
  have hb : 0 < b := by
    rcases Nat.eq_zero_or_pos b with h | h
    · rw [h, Nat.mul_zero] at hn; omega
    · exact h
  have hmod : n % b < b := Nat.mod_lt n hb
  have hdiv : n / b < a := (Nat.div_lt_iff_lt_mul hb).2 hn
  refine ⟨(n % b, n / b), ⟨⟨hmod, hdiv⟩, ?_⟩, ?_⟩
  · rw [dstIndex_eq a b (n % b) (n / b) hab hmod hdiv, Nat.div_add_mod']
  · rintro ⟨y, x⟩ ⟨⟨hy, hx⟩, hq⟩
    rw [dstIndex_eq a b y x hab hy hx] at hq
    have e : x * b + y = n / b * b + n % b := by
      rw [Nat.div_add_mod']
      exact_mod_cast hq
    obtain ⟨e1, e2⟩ := dst_inj b x y (n / b) (n % b) hy hmod e
    exact Prod.ext e2 e1

/-- The indices stored to are those below `a * b`, each once. -/
theorem stores_perm (a b : Nat) :
    ((loopPairs (a : Int) (b : Int)).map (fun p => p.2 * b + p.1)).Perm
      (List.range (a * b)) := by
  refine (List.perm_ext_iff_of_nodup (nodup_loopPairs_dst a b) (List.nodup_range _)).2 ?_
  intro j
  rw [List.mem_range, List.mem_map]
  constructor
  · rintro ⟨p, hp, rfl⟩
    rw [mem_loopPairs] at hp
    exact mul_add_lt b a p.2 p.1 hp.2 hp.1
  · intro hj
    have hb : 0 < b := by
      rcases Nat.eq_zero_or_pos b with h | h
      · rw [h, Nat.mul_zero] at hj; omega
      · exact h
    exact ⟨(j % b, j / b),
      (mem_loopPairs a b _).2 ⟨Nat.mod_lt j hb, (Nat.div_lt_iff_lt_mul hb).2 hj⟩,
      Nat.div_add_mod' j b⟩

/-- C9: for `sx ≥ 0`, `sy ≥ 0` with `sx*sy < 2^31`, every pair `(y, x)` of the
loop gives a source index `y*sx+x` and a destination index `x*sy+y` in
`[0, sx*sy)`; every index of `[0, sx*sy)` is the destination of exactly one
pair; and on buffers of `sx*sy` elements the loop completes without an access
outside them, storing to every cell exactly once (to none when `sx*sy = 0`). -/
theorem loop_indices_bijective (sx sy : Int) (outdata : List Nat) (outnan : List Bool)
    (hsx : 0 ≤ sx) (hsy : 0 ≤ sy) (hb : sx * sy < 2147483648)
    (hd : (outdata.length : Int) = sx * sy) (hn : (outnan.length : Int) = sx * sy) :
    (∀ y x : Nat, (y : Int) < sy → (x : Int) < sx →
      0 ≤ srcIndex sx y x ∧ srcIndex sx y x < sx * sy ∧
      0 ≤ dstIndex sy y x ∧ dstIndex sy y x < sx * sy) ∧
    (∀ j : Int, 0 ≤ j → j < sx * sy →
      ∃! p : Nat × Nat, ((p.1 : Int) < sy ∧ (p.2 : Int) < sx) ∧ dstIndex sy p.1 p.2 = j) ∧
    (∃ m stores, materialize sx sy outdata outnan
        (List.replicate (sy.toNat * sx.toNat) 0, []) = some (m, stores) ∧
      stores.Perm (List.range (sx * sy).toNat) ∧
      (sx = 0 ∨ sy = 0 → stores = [])) := by
  obtain ⟨a, rfl⟩ := Int.eq_ofNat_of_zero_le hsx
  obtain ⟨b, rfl⟩ := Int.eq_ofNat_of_zero_le hsy
  have hlt : a * b < 2147483648 := by exact_mod_cast hb
  have hab : a * b ≤ 2147483648 := Nat.le_of_lt hlt
  have hd' : outdata.length = a * b := by exact_mod_cast hd
  have hn' : outnan.length = a * b := by exact_mod_cast hn
  have hprod : ((a : Int) * (b : Int)).toNat = a * b := by
    rw [← Int.natCast_mul, Int.toNat_ofNat]
  refine ⟨?_, ?_, ?_⟩
  · intro y x hy hx
    have hy' : y < b := by exact_mod_cast hy
    have hx' : x < a := by exact_mod_cast hx
    have h1 : y * a + x < a * b := by
      have := mul_add_lt a b y x hy' hx'
      rwa [Nat.mul_comm b a] at this
    have h2 : x * b + y < a * b := mul_add_lt b a x y hx' hy'
    rw [srcIndex_eq a b y x hab hy' hx', dstIndex_eq a b y x hab hy' hx',
      ← Int.natCast_mul]
    exact ⟨Int.ofNat_nonneg _, by exact_mod_cast h1, Int.ofNat_nonneg _, by exact_mod_cast h2⟩
  · intro j hj0 hj
    obtain ⟨n, rfl⟩ := Int.eq_ofNat_of_zero_le hj0
    have hn2 : n < a * b := by exact_mod_cast hj
    obtain ⟨p, hp, huniq⟩ := dst_bijective a b n hab hn2
    refine ⟨p, ⟨⟨by exact_mod_cast hp.1.1, by exact_mod_cast hp.1.2⟩, hp.2⟩, ?_⟩
    rintro q ⟨⟨h1, h2⟩, h3⟩
    exact huniq q ⟨⟨by exact_mod_cast h1, by exact_mod_cast h2⟩, h3⟩
  · obtain ⟨m, h1, _, _⟩ := materialize_spec a b outdata outnan
      (List.replicate (b * a) 0, []) hab hd' hn' (by simp [Nat.mul_comm])
    simp only [Int.toNat_ofNat, List.nil_append] at h1 ⊢
    refine ⟨m, _, h1, ?_, ?_⟩
    · rw [hprod]
      exact stores_perm a b
    · intro h0
      have hz : a * b = 0 := by
        rcases h0 with h | h
        · have : a = 0 := by exact_mod_cast h
          rw [this, Nat.zero_mul]
        · have : b = 0 := by exact_mod_cast h
          rw [this, Nat.mul_zero]
      have hp := stores_perm a b
      rw [hz, List.range_zero] at hp
      exact List.Perm.eq_nil hp

/-- C9 at `sx = 2`, `sy = 3`. -/
theorem loop_indices_bijective_witness :
    (∀ y x : Nat, (y : Int) < 3 → (x : Int) < 2 →
      0 ≤ srcIndex 2 y x ∧ srcIndex 2 y x < 2 * 3 ∧
      0 ≤ dstIndex 3 y x ∧ dstIndex 3 y x < 2 * 3) ∧
    (∀ j : Int, 0 ≤ j → j < 2 * 3 →
      ∃! p : Nat × Nat, ((p.1 : Int) < 3 ∧ (p.2 : Int) < 2) ∧ dstIndex 3 p.1 p.2 = j) ∧
    (∃ m stores, materialize 2 3 [1, 2, 3, 4, 5, 6]
        [false, false, true, false, false, false]
        (List.replicate ((3 : Int).toNat * (2 : Int).toNat) 0, []) = some (m, stores) ∧
      stores.Perm (List.range ((2 : Int) * 3).toNat) ∧
      ((2 : Int) = 0 ∨ (3 : Int) = 0 → stores = [])) :=
  loop_indices_bijective 2 3 [1, 2, 3, 4, 5, 6] [false, false, true, false, false, false]
    (by decide) (by decide) (by decide) (by decide) (by decide)

/-! ## C7: the number of results and of arguments -/

/-- C7: with `nlhs ≠ 1` the call fails with "Missing output argument"; with
`nlhs = 1` and a number of arguments other than 1 or 2 it fails with "Invalid
input argument"; in both cases no file is opened and `parse` is not invoked. -/
theorem arity_errors (env : Env) (nlhs : Int) (prhs : List MxArray) :
    (nlhs ≠ 1 →
      (mexFunction env nlhs prhs).out = Outcome.error "Missing output argument" ∧
      ∀ e ∈ (mexFunction env nlhs prhs).log, e.isFopen = false ∧ e.isParse = false) ∧
    (nlhs = 1 → prhs.length ≠ 1 → prhs.length ≠ 2 →
      (mexFunction env nlhs prhs).out = Outcome.error "Invalid input argument" ∧
      ∀ e ∈ (mexFunction env nlhs prhs).log, e.isFopen = false ∧ e.isParse = false) := by
  constructor
  · intro h
    unfold mexFunction
    rw [if_pos h]
    exact ⟨rfl, by simp [Event.isFopen, Event.isParse]⟩
  · intro h h1 h2
    unfold mexFunction
    rw [if_neg (by simp [h])]
    split
    · simp at h1
    · simp at h2
    · exact ⟨rfl, by simp [Event.isFopen, Event.isParse]⟩

/-- C7 at a call with no result expected and at a call with three arguments. -/
theorem arity_errors_witness :
    ((mexFunction smallEnv 0 [nameArg]).out = Outcome.error "Missing output argument" ∧
      ∀ e ∈ (mexFunction smallEnv 0 [nameArg]).log, e.isFopen = false ∧ e.isParse = false) ∧
    ((mexFunction smallEnv 1 [nameArg, scalarArg 0, scalarArg 0]).out =
        Outcome.error "Invalid input argument" ∧
      ∀ e ∈ (mexFunction smallEnv 1 [nameArg, scalarArg 0, scalarArg 0]).log,
        e.isFopen = false ∧ e.isParse = false) :=
  ⟨(arity_errors smallEnv 0 [nameArg]).1 (by decide),
    (arity_errors smallEnv 1 [nameArg, scalarArg 0, scalarArg 0]).2 rfl (by decide)
      (by decide)⟩

/-! ## C5: the classes and shapes of the arguments -/

/-- C5: when the file-name argument is not a character array, or a second
argument is present and is not a 1-by-1 `double`, the call fails with an
error, no file is opened and `parse` is not invoked. -/
theorem bad_argument_rejected (env : Env) (nlhs : Int) (prhs : List MxArray)
    (h : (∃ a, prhs[0]? = some a ∧ a.classID ≠ ClassID.char) ∨
      (∃ a, prhs[1]? = some a ∧ (a.classID ≠ ClassID.double ∨ a.m ≠ 1 ∨ a.n ≠ 1))) :
    ∃ msg, (mexFunction env nlhs prhs).out = Outcome.error msg ∧
      ∀ e ∈ (mexFunction env nlhs prhs).log, e.isFopen = false ∧ e.isParse = false := by
  unfold mexFunction
  split_ifs with h0
  · exact ⟨_, rfl, by simp [Event.isFopen, Event.isParse]⟩
  · split
    · rename_i a0
      rcases h with ⟨a, ha, hc⟩ | ⟨a, ha, _⟩
      · simp only [List.getElem?_cons_zero, Option.some.injEq] at ha
        subst ha
        rw [mexBody_not_char env _ 0 hc]
        exact ⟨_, rfl, by simp⟩
      · simp at ha
    · rename_i a0 a1
      split_ifs with h1
      · exact ⟨_, rfl, by simp [Event.isFopen, Event.isParse]⟩
      · rcases h with ⟨a, ha, hc⟩ | ⟨a, ha, hs⟩
        · simp only [List.getElem?_cons_zero, Option.some.injEq] at ha
          subst ha
          rw [mexBody_not_char env _ _ hc]
          exact ⟨_, rfl, by simp⟩
        · simp only [List.getElem?_cons_succ, List.getElem?_cons_zero,
            Option.some.injEq] at ha
          subst ha
          exact absurd hs h1
    · exact ⟨_, rfl, by simp [Event.isFopen, Event.isParse]⟩

/-- C5 at a call whose file name is a number and at a call whose column count
is a 1-by-2 `double`. -/
theorem bad_argument_rejected_witness :
    (∃ msg, (mexFunction smallEnv 1 [scalarArg 0]).out = Outcome.error msg ∧
      ∀ e ∈ (mexFunction smallEnv 1 [scalarArg 0]).log,
        e.isFopen = false ∧ e.isParse = false) ∧
    (∃ msg, (mexFunction smallEnv 1 [nameArg, ⟨ClassID.double, 1, 2, [0, 0], []⟩]).out =
        Outcome.error msg ∧
      ∀ e ∈ (mexFunction smallEnv 1 [nameArg, ⟨ClassID.double, 1, 2, [0, 0], []⟩]).log,
        e.isFopen = false ∧ e.isParse = false) :=
  ⟨bad_argument_rejected smallEnv 1 [scalarArg 0] (Or.inl ⟨scalarArg 0, rfl, by decide⟩),
    bad_argument_rejected smallEnv 1 [nameArg, ⟨ClassID.double, 1, 2, [0, 0], []⟩]
      (Or.inr ⟨⟨ClassID.double, 1, 2, [0, 0], []⟩, rfl, by decide⟩)⟩

/-! ## C8: a file that cannot be opened or read -/

/-- A call with one result whose arguments pass the checks of lines 63-87. -/
theorem mexFunction_checked (env : Env) (a0 : MxArray) (col : Option MxArray)
    (hcol : ∀ a1 ∈ col, a1.classID = ClassID.double ∧ a1.m = 1 ∧ a1.n = 1) :
    ∃ fixedcol, mexFunction env 1 (a0 :: col.toList) = mexBody env a0 fixedcol := by
  cases col with
  | none => exact ⟨0, mexFunction_one env a0⟩
  | some a1 =>
    obtain ⟨h1, h2, h3⟩ := hcol a1 rfl
    exact ⟨_, mexFunction_two env a0 a1 h1 h2 h3⟩

/-- C8, as stated, fails: `hugeFile` has `2^32 + 3` bytes, the `unsigned`
`fsize` is 3, the read returns 3 bytes, fewer than the file size, and the call
raises no error: `parse` is invoked on the first three bytes and a matrix is
returned. -/
theorem io_failure_counterexample :
    hugeFile.tell = 4294967299 ∧ hugeFile.bytes.length = 4294967299 ∧
    (hugeFile.bytes.take (fsizeOf hugeFile)).length = 3 ∧
    Event.parse [49, 32, 50, 0] 0 ∈ (mexFunction hugeEnv 1 [nameArg]).log ∧
    (mexFunction hugeEnv 1 [nameArg]).out = Outcome.ok ⟨0, 0, []⟩ := by
  have hf : fsizeOf hugeFile = 3 := by decide
  have htake : hugeFile.bytes.take (fsizeOf hugeFile) = [49, 32, 50] := by
    rw [hf]
    exact List.take_left' rfl
  have hlen : hugeFile.bytes.length = 4294967299 := by
    show ([49, 32, 50] ++ List.replicate 4294967296 10).length = 4294967299
    rw [List.length_append, List.length_replicate]
    rfl
  have hrun : mexFunction hugeEnv 1 [nameArg] =
      ⟨[Event.fopen ['f'], Event.parse [49, 32, 50, 0] 0, Event.create 0 0],
        Outcome.ok ⟨0, 0, []⟩⟩ := by
    rw [mexFunction_one, mexBody_read hugeEnv nameArg 0 hugeFile rfl rfl rfl
      (by rw [hf]; decide) (by rw [htake, hf]; rfl), htake]
    decide
  rw [hrun, htake]
  exact ⟨rfl, hlen, rfl, by simp, rfl⟩

/-- C8, amended: in a call with one result, a character-array file name and an
absent or 1-by-1 `double` column count, a file that cannot be opened gives
"Error: can't open file"; a read that returns fewer bytes than `fsize`, the
size `ftell` reports reduced modulo `2^32`, and whose bytes fit the block of
`(fsize+1) mod 2^32` bytes, gives "Error: can't read the file"; neither
message is "Error: can't parse file", and `parse` is not invoked. -/
theorem io_failure_aborts (env : Env) (a0 : MxArray) (col : Option MxArray)
    (hname : a0.classID = ClassID.char)
    (hcol : ∀ a1 ∈ col, a1.classID = ClassID.double ∧ a1.m = 1 ∧ a1.n = 1) :
    (env.fopen (a0.chars.take (MAXFNAME - 1)) = none →
      (mexFunction env 1 (a0 :: col.toList)).out = Outcome.error "Error: can't open file" ∧
      ∀ e ∈ (mexFunction env 1 (a0 :: col.toList)).log, e.isParse = false) ∧
    (∀ f, env.fopen (a0.chars.take (MAXFNAME - 1)) = some f →
      env.malloc ((fsizeOf f + 1) % 4294967296) = true →
      (f.bytes.take (fsizeOf f)).length < fsizeOf f →
      (f.bytes.take (fsizeOf f)).length ≤ (fsizeOf f + 1) % 4294967296 →
      (mexFunction env 1 (a0 :: col.toList)).out =
        Outcome.error "Error: can't read the file" ∧
      ∀ e ∈ (mexFunction env 1 (a0 :: col.toList)).log, e.isParse = false) ∧
    "Error: can't open file" ≠ "Error: can't parse file" ∧
    "Error: can't read the file" ≠ "Error: can't parse file" := by
  obtain ⟨fixedcol, hrun⟩ := mexFunction_checked env a0 col hcol
  rw [hrun]
  refine ⟨?_, ?_, by decide, by decide⟩
  · intro ho
    rw [mexBody_no_open env a0 fixedcol hname ho]
    exact ⟨rfl, by simp [Event.isParse]⟩
  · intro f ho hm hr hfit
    rw [mexBody_short_read env a0 fixedcol f hname ho hm hfit (Nat.ne_of_lt hr)]
    exact ⟨rfl, by simp [Event.isParse]⟩

/-- C8 amended, at a call on a host without the file and at a call on a host
whose file is cut short. -/
theorem io_failure_aborts_witness :
    ((mexFunction noFileEnv 1 [nameArg]).out = Outcome.error "Error: can't open file" ∧
      ∀ e ∈ (mexFunction noFileEnv 1 [nameArg]).log, e.isParse = false) ∧
    ((mexFunction shortEnv 1 [nameArg, scalarArg 0x4000000000000000]).out =
        Outcome.error "Error: can't read the file" ∧
      ∀ e ∈ (mexFunction shortEnv 1 [nameArg, scalarArg 0x4000000000000000]).log,
        e.isParse = false) :=
  ⟨(io_failure_aborts noFileEnv nameArg none rfl (by simp)).1 rfl,
    (io_failure_aborts shortEnv nameArg (some (scalarArg 0x4000000000000000)) rfl
      (by simp [scalarArg])).2.1 ⟨5, [49, 10]⟩ rfl rfl (by decide) (by decide)⟩

/-! ## C6: the value of the column count -/

/-- C10: a call with the explicit column count `0.0` is the call without a
column count: same steps, same outcome, and `parse`, when invoked, receives
`fixedcol = 0` on the same buffer. -/
theorem zero_column_count_is_default (env : Env) (nlhs : Int) (a0 a1 : MxArray)
    (hc : a1.classID = ClassID.double) (hm : a1.m = 1) (hn : a1.n = 1) (hz : a1.pr = [0]) :
    mexFunction env nlhs [a0, a1] = mexFunction env nlhs [a0] ∧
    ∀ buffer k, Event.parse buffer k ∈ (mexFunction env nlhs [a0, a1]).log →
      k = 0 ∧ Event.parse buffer 0 ∈ (mexFunction env nlhs [a0]).log := by
  have hconv : doubleToInt (a1.pr.headD 0) = 0 := by
    rw [hz]
    decide
  have heq : mexFunction env nlhs [a0, a1] = mexFunction env nlhs [a0] := by
    by_cases h : nlhs = 1
    · subst h
      rw [mexFunction_two env a0 a1 hc hm hn, mexFunction_one, hconv]
    · simp [mexFunction, h]
  refine ⟨heq, ?_⟩
  intro buffer k hk
  rw [heq] at hk
  by_cases h : nlhs = 1
  · subst h
    rw [mexFunction_one] at hk ⊢
    obtain ⟨e, _⟩ := mexBody_of_parse env a0 0 buffer k hk
    subst e
    exact ⟨rfl, hk⟩
  · simp [mexFunction, h] at hk

/-- C10 at the call of `smallEnv`. -/
theorem zero_column_count_is_default_witness :
    mexFunction smallEnv 1 [nameArg, scalarArg 0] = mexFunction smallEnv 1 [nameArg] ∧
    ∀ buffer k, Event.parse buffer k ∈ (mexFunction smallEnv 1 [nameArg, scalarArg 0]).log →
      k = 0 ∧ Event.parse buffer 0 ∈ (mexFunction smallEnv 1 [nameArg]).log :=
  zero_column_count_is_default smallEnv 1 nameArg (scalarArg 0) rfl rfl rfl rfl

/-! ## C4: a fixed number of columns -/

end Matread
